import Mathlib

/-!
Shallow embedding of `GridSearchDSVientos.js` (hydrological grid-search
calibration script) and verification of its specification claims.

Modelling conventions:
* JavaScript numbers are modelled exactly: finite values are rationals,
  with explicit `NaN` / `Infinity` / `-Infinity` constructors (`JN`).
  IEEE rounding of doubles is not modelled; every claim checked here
  concerns exact values (0, 1, NaN, infinities) where doubles are exact.
* Values flowing through `predict` can be numbers, strings or the object
  returned by `getDefaultWindValues()`; these are modelled by `JVal`.
  The content of strings produced by `+` on an object is irrelevant to
  every claim (only that it is a non-numeric string), so `JVal.str`
  carries no payload.
* Timestamps are `Date.getTime()` values in milliseconds, exact rationals.
  Data points loaded from CSV always carry a valid date (the loader skips
  rows with invalid dates), so series points carry a plain rational time.
-/

/-- The eight cardinal wind directions (`['N','NE','E','SE','S','SW','W','NW']`). -/
inductive Dir where
  | N | NE | E | SE | S | SW | W | NW
deriving DecidableEq, Repr

/-- A JavaScript number: NaN, ±Infinity, or a finite (exact) value. -/
inductive JN where
  | nan : JN
  | inf : JN
  | ninf : JN
  | fin : ℚ → JN
deriving DecidableEq, Repr

/-- JS `+` on numbers (NaN absorbing, `Infinity + -Infinity = NaN`). -/
def jnAdd : JN → JN → JN
  | JN.nan, _ => JN.nan
  | _, JN.nan => JN.nan
  | JN.inf, JN.ninf => JN.nan
  | JN.ninf, JN.inf => JN.nan
  | JN.inf, _ => JN.inf
  | _, JN.inf => JN.inf
  | JN.ninf, _ => JN.ninf
  | _, JN.ninf => JN.ninf
  | JN.fin a, JN.fin b => JN.fin (a + b)

/-- JS `-` on numbers. -/
def jnSub : JN → JN → JN
  | JN.nan, _ => JN.nan
  | _, JN.nan => JN.nan
  | JN.inf, JN.inf => JN.nan
  | JN.ninf, JN.ninf => JN.nan
  | JN.inf, _ => JN.inf
  | JN.ninf, _ => JN.ninf
  | _, JN.inf => JN.ninf
  | _, JN.ninf => JN.inf
  | JN.fin a, JN.fin b => JN.fin (a - b)

/-- JS `*` on numbers (`Infinity * 0 = NaN`). -/
def jnMul : JN → JN → JN
  | JN.nan, _ => JN.nan
  | _, JN.nan => JN.nan
  | JN.inf, JN.inf => JN.inf
  | JN.inf, JN.ninf => JN.ninf
  | JN.ninf, JN.inf => JN.ninf
  | JN.ninf, JN.ninf => JN.inf
  | JN.inf, JN.fin b => if b = 0 then JN.nan else if 0 < b then JN.inf else JN.ninf
  | JN.fin a, JN.inf => if a = 0 then JN.nan else if 0 < a then JN.inf else JN.ninf
  | JN.ninf, JN.fin b => if b = 0 then JN.nan else if 0 < b then JN.ninf else JN.inf
  | JN.fin a, JN.ninf => if a = 0 then JN.nan else if 0 < a then JN.ninf else JN.inf
  | JN.fin a, JN.fin b => JN.fin (a * b)

/-- JS `/` by a plain rational divisor (`x / 0` gives NaN for `0/0`, signed infinity otherwise). -/
def jnDivQ : JN → ℚ → JN
  | JN.nan, _ => JN.nan
  | JN.inf, d => if d < 0 then JN.ninf else JN.inf
  | JN.ninf, d => if d < 0 then JN.inf else JN.ninf
  | JN.fin a, d =>
      if d = 0 then (if a = 0 then JN.nan else if a < 0 then JN.ninf else JN.inf)
      else JN.fin (a / d)

/-- JS `>=` on numbers: any comparison involving NaN is false. -/
def jnGe : JN → JN → Bool
  | JN.nan, _ => false
  | _, JN.nan => false
  | JN.inf, _ => true
  | _, JN.inf => false
  | _, JN.ninf => true
  | JN.ninf, _ => false
  | JN.fin a, JN.fin b => decide (b ≤ a)

/-- A value that can flow out of `calculateWindComponent` and through `predict`:
a number, a (non-numeric) string, or the `getDefaultWindValues()` object
`{direction: 'N', speed: 0, contribution: 0}`. -/
inductive JVal where
  | num : ℚ → JVal
  | str : JVal
  | windDefault : JVal
deriving DecidableEq, Repr

/-- JS `+` on such values: number + number adds; any string or object operand
turns the result into a string (`ToPrimitive` of the plain object is
`"[object Object]"`, and string concatenation yields a string). -/
def jsAdd : JVal → JVal → JVal
  | JVal.num a, JVal.num b => JVal.num (a + b)
  | _, _ => JVal.str

/-- JS truthiness of such a value. The strings this program produces are
nonempty concatenations, hence truthy; objects are always truthy. -/
def jsTruthy : JVal → Bool
  | JVal.num q => decide (q ≠ 0)
  | JVal.str => true
  | JVal.windDefault => true

/-- Reading `.direction` off such a value: `undefined` (`none`) on numbers
and strings, `'N'` on the default wind object. -/
def jvDirection : JVal → Option Dir
  | JVal.windDefault => some Dir.N
  | _ => none

/-- `isNaN(v.speed)`: `.speed` of a number or string is `undefined`, and
`isNaN(undefined)` is true; the default wind object has `speed: 0`. -/
def jvSpeedNaN : JVal → Bool
  | JVal.windDefault => false
  | _ => true

/-- `.speed` of such a value where it is a number (only the default object). -/
def jvSpeed : JVal → ℚ
  | JVal.windDefault => 0
  | _ => 0

/-- JS `y - v` where `y` is a number: a string or object right operand
coerces to NaN (the strings produced by this program are non-numeric). -/
def jnOfSub (y : ℚ) : JVal → JN
  | JVal.num q => JN.fin (y - q)
  | JVal.str => JN.nan
  | JVal.windDefault => JN.nan

/-- A scalar series point `{x: Date, y: number}` (time in milliseconds). -/
structure TimePoint where
  x : ℚ
  y : ℚ
deriving DecidableEq, Repr

/-- A wind series point `{x, y: speed, speed, direction}` as built by `loadWindCSV`. -/
structure WindPoint where
  x : ℚ
  y : ℚ
  speed : ℚ
  direction : Dir
deriving DecidableEq, Repr

/-- The `{x, y}` view of a wind point used by the duck-typed `findClosestValue`. -/
def WindPoint.toTimePoint (w : WindPoint) : TimePoint := ⟨w.x, w.y⟩

/-- `Math.abs(pointTime - targetTime) || Infinity` of the reduce in
`findClosestValue`: a zero difference is falsy, so it becomes Infinity. -/
def jsDiff (t q : ℚ) : WithTop ℚ :=
  if |t - q| = 0 then ⊤ else (|t - q| : ℚ)

/-- Difference of the current accumulator of the reduce: the initial
accumulator `{y: 0}` has no `x`, so `undefined - targetTime` is NaN and
`NaN || Infinity` is Infinity. -/
def jsAccDiff (q : ℚ) : Option TimePoint → WithTop ℚ
  | none => ⊤
  | some p => jsDiff p.x q

/-- One step of the reduce in `findClosestValue`:
`currDiff < prevDiff ? curr : prev`. -/
def jsCloser (q : ℚ) (prev : Option TimePoint) (curr : TimePoint) : Option TimePoint :=
  if jsDiff curr.x q < jsAccDiff q prev then some curr else prev

/-- `RiverModel.findClosestValue(data, targetDate)` on a valid date:
linear reduce starting from the default object `{y: 0}`, returning the
closest point's `y` (0 if the default object survives). The invalid-date
guards upstream of this reduce return 0 and are not exercised by any claim. -/
def findClosestValue (data : List TimePoint) (targetTime : ℚ) : ℚ :=
  match data.foldl (jsCloser targetTime) none with
  | none => 0
  | some p => p.y

/-- `RiverModel` configuration: weights map, lags map (hours), direction →
coefficient map, wind factor, offset. (The upstream `weights.winds` entry
exists but is never read by the model.) -/
structure RiverModel where
  wPalmas : ℚ
  wItu : ℚ
  wBa : ℚ
  lagPalmas : ℚ
  lagItu : ℚ
  lagBa : ℚ
  lagVientos : ℚ
  windCoeffs : Dir → ℚ
  windFactor : ℚ
  offset : ℚ

/-- The data record handed to `predict`/`evaluate` (the target series is the
observed `ram` series). -/
structure EvalData where
  palmas : List TimePoint
  itu : List TimePoint
  ba : List TimePoint
  vientos : List WindPoint
  target : List TimePoint

/-- `RiverModel.calculateComponent`: lagged nearest-neighbour lookup times the
source weight (`laggedDate = target − lagHours·3600·1000` ms). -/
def calculateComponent (weight lagHours : ℚ) (targetX : ℚ) (data : List TimePoint) : ℚ :=
  findClosestValue data (targetX - lagHours * 3600 * 1000) * weight

/-- `RiverModel.calculateWindComponent`. The date guards (steps 1–2) pass for
any valid target date. Step 3 calls `findClosestValue`, which returns the
closest point's `y` — a *number* — so the `.direction` check of step 4 always
finds `undefined` and the function returns `getDefaultWindValues()`, an object.
Steps 4–5 are embedded as written. -/
def calculateWindComponent (m : RiverModel) (target : TimePoint)
    (windData : List WindPoint) : JVal :=
  let laggedTime := target.x - m.lagVientos * 3600 * 1000
  let windPoint : JVal :=
    JVal.num (findClosestValue (windData.map WindPoint.toTimePoint) laggedTime)
  if jsTruthy windPoint = false then JVal.windDefault
  else
    match jvDirection windPoint with
    | none => JVal.windDefault
    | some d =>
        if jsTruthy (JVal.num (m.windCoeffs d)) = false ∨ jvSpeedNaN windPoint = true then
          JVal.windDefault
        else
          JVal.num (m.windCoeffs d * jvSpeed windPoint * m.windFactor)

/-- `RiverModel.predict`: left-associated JS `+` over the three weighted scalar
components, the wind component (which may be an object), and the offset. -/
def predict (m : RiverModel) (target : TimePoint) (data : EvalData) : JVal :=
  let cPalmas := calculateComponent m.wPalmas m.lagPalmas target.x data.palmas
  let cItu := calculateComponent m.wItu m.lagItu target.x data.itu
  let cBa := calculateComponent m.wBa m.lagBa target.x data.ba
  let wind := calculateWindComponent m target data.vientos
  jsAdd (jsAdd (jsAdd (jsAdd (JVal.num cPalmas) (JVal.num cItu)) (JVal.num cBa)) wind)
    (JVal.num m.offset)

/-- `toFixed(4)` then `parseFloat` on a finite value, in exact arithmetic. -/
def round4 (q : ℚ) : ℚ := round (q * 10 ^ 4) / 10 ^ 4

/-- `parseFloat(v.toFixed(4))` on a JS number (`NaN` and infinities round-trip). -/
def jnRound4 : JN → JN
  | JN.nan => JN.nan
  | JN.inf => JN.inf
  | JN.ninf => JN.ninf
  | JN.fin q => JN.fin (round4 q)

/-- `round(√q · 10⁴) / 10⁴` for `q ≥ 0`, computed exactly with integer square
roots: `round(√x) = ⌈⌊√(4x)⌋ / 2⌉`. This composes `Math.sqrt` with the
`toFixed(4)`/`parseFloat` rounding applied to the RMSE. -/
def round4Sqrt (q : ℚ) : ℚ :=
  (((Nat.sqrt (Int.toNat ⌊4 * (q * 10 ^ 8)⌋) + 1) / 2 : ℕ) : ℚ) / 10 ^ 4

/-- `Math.sqrt` followed by the 4-decimal rounding, on a JS number. Every
reachable argument is a mean of squares, hence ≥ 0 when finite. -/
def jnSqrtRound4 : JN → JN
  | JN.nan => JN.nan
  | JN.inf => JN.inf
  | JN.ninf => JN.nan
  | JN.fin q => JN.fin (round4Sqrt q)

/-- `errors.reduce((sum, err) => sum + err * err, 0)`. -/
def sseOf (errors : List JN) : JN :=
  errors.foldl (fun s err => jnAdd s (jnMul err err)) (JN.fin 0)

/-- `observations.reduce((sum, obs) => sum + obs, 0) / n`. -/
def meanOf (observations : List ℚ) : ℚ :=
  observations.foldl (· + ·) 0 / (observations.length : ℚ)

/-- `observations.reduce((sum, obs) => sum + (obs - mean)², 0)`. -/
def ssTotalOf (observations : List ℚ) : ℚ :=
  observations.foldl (fun s obs => s + (obs - meanOf observations) ^ 2) 0

/-- The `{r2, rmse}` record returned by `calculateMetrics` (both already
passed through `parseFloat(·.toFixed(4))`). -/
structure MetricsResult where
  r2 : JN
  rmse : JN
deriving DecidableEq, Repr

/-- `RiverModel.calculateMetrics`: early `{r2: 0, rmse: Infinity}` on empty
input; otherwise `rmse = √(SSE/n)` and `r2 = 1 − SSE/SST`, with `r2 = 0`
whenever `SST ≤ 1e-10`; both rounded to 4 decimals on return. -/
def calculateMetrics (observations : List ℚ) (errors : List JN) : MetricsResult :=
  if observations.length = 0 then ⟨JN.fin 0, JN.inf⟩
  else
    ⟨jnRound4
        (if ssTotalOf observations ≤ 1e-10 then JN.fin 0
         else jnSub (JN.fin 1) (jnDivQ (sseOf errors) (ssTotalOf observations))),
      jnSqrtRound4 (jnDivQ (sseOf errors) (observations.length : ℚ))⟩

/-- `RiverModel.evaluate`: predict every target point, collect observations
and errors `y − prediction`, and compute the metrics. -/
def evaluate (m : RiverModel) (data : EvalData) : MetricsResult :=
  calculateMetrics (data.target.map (fun tp => tp.y))
    (data.target.map (fun tp => jnOfSub tp.y (predict m tp data)))

/-- The metrics evaluator fed with explicit prediction/observation sequences,
with errors formed pointwise exactly as `evaluate` forms them. -/
def evaluateMetrics (predictions : List JVal) (observations : List ℚ) : MetricsResult :=
  calculateMetrics observations
    ((observations.zip predictions).map (fun p => jnOfSub p.1 p.2))

/-! ## Result Sink (`ResultWriter`) and Result Merger (`combineResults`) -/

/-- The 8 direction names in their fixed order. -/
def dirNames : List String := ["N", "NE", "E", "SE", "S", "SW", "W", "NW"]

/-- The 10 base-parameter column names (4 weights, 4 lags, 2 main parameters). -/
def baseCols : List String :=
  ["pesoPalmas", "pesoItu", "pesoBa", "pesoVientos",
   "lagPalmas", "lagItu", "lagBa", "lagVientos",
   "factorViento", "offset"]

/-- The 4 metric column names. -/
def metricCols : List String := ["trainR2", "testR2", "trainRmse", "testRmse"]

/-- The fixed 30-column schema (`CSV_COLUMNS` / the writer and merger headers). -/
def csvColumns : List String :=
  baseCols
    ++ (dirNames.map (fun d => ["coef_" ++ d ++ "_factor", "coef_" ++ d ++ "_peso"])).join
    ++ metricCols

/-- `"R2"` occurs in the character list (structural scan). -/
def containsR2List : List Char → Bool
  | [] => false
  | c :: t => (decide (c = 'R') && decide (t.head? = some '2')) || containsR2List t

/-- `col.includes('R2')`. -/
def containsR2 (s : String) : Bool := containsR2List s.data

/-- One row as built by `ResultWriter.write` from a possibly-partial record
(`none` = the field is `undefined`): base columns default to 0, direction
`factor` columns to 0, `peso` columns to 0.5, and metric columns to
`-Infinity` when the name contains `R2` and `Infinity` otherwise; the final
literal projection lists the 30 cells in exactly this construction order. -/
def writerRow (result : String → Option JN) : List JN :=
  (baseCols.map (fun col => (result col).getD (JN.fin 0)))
    ++ (dirNames.map (fun d =>
          [(result ("coef_" ++ d ++ "_factor")).getD (JN.fin 0),
           (result ("coef_" ++ d ++ "_peso")).getD (JN.fin 0.5)])).join
    ++ (metricCols.map (fun col =>
          (result col).getD (if containsR2 col then JN.ninf else JN.inf)))

/-- The claim's per-column default, spelled by column group: 0 for the 10 base
columns and the wind `factor` columns, 0.5 for the wind `peso` columns, −∞ for
the R² columns, +∞ for the RMSE columns. -/
def defaultForCol (col : String) : JN :=
  if col ∈ baseCols then JN.fin 0
  else if col ∈ dirNames.map (fun d => "coef_" ++ d ++ "_factor") then JN.fin 0
  else if col ∈ dirNames.map (fun d => "coef_" ++ d ++ "_peso") then JN.fin 0.5
  else if col = "trainR2" ∨ col = "testR2" then JN.ninf
  else JN.inf

/-- The same per-column default as the string the merger writes. -/
def strDefaultForCol (col : String) : String :=
  if col ∈ baseCols then "0"
  else if col ∈ dirNames.map (fun d => "coef_" ++ d ++ "_factor") then "0"
  else if col ∈ dirNames.map (fun d => "coef_" ++ d ++ "_peso") then "0.5"
  else if col = "trainR2" ∨ col = "testR2" then "-Infinity"
  else "Infinity"

/-- The positional default chain of `combineResults`: index < 10 → `'0'`,
index < 26 → `'0'` on even and `'0.5'` on odd positions, index < 28 →
`'-Infinity'`, else `'Infinity'`. -/
def mergeDefault (i : ℕ) : String :=
  if i < 10 then "0"
  else if i < 26 then (if i % 2 = 0 then "0" else "0.5")
  else if i < 28 then "-Infinity" else "Infinity"

/-- The merger's per-line normalization: for each of the 30 positions, keep
`parts[i]` when it exists and trims to a nonempty string, otherwise substitute
the positional default. -/
def normalizeLine (parts : List String) : List String :=
  (List.range 30).map (fun i =>
    if i < parts.length ∧ (parts.getD i "").trim ≠ "" then parts.getD i ""
    else mergeDefault i)

/-! ## Dispatcher (`assignWork`) and the main loop -/

/-- The chunks actually posted to workers by repeated `assignWork` calls, for a
generator yielding the list `gen` at chunk size `C`: each call pulls up to `C`
parameter sets, but if the generator reports `done` mid-pull the call returns
immediately and the partially built chunk is **discarded**, not dispatched.
(The model requires `0 < C`; with a zero chunk size the JS loop would dispatch
empty chunks forever.) -/
def dispatchAll (C : ℕ) (gen : List ℕ) : List (List ℕ) :=
  if h : 0 < C ∧ C ≤ gen.length then
    gen.take C :: dispatchAll C (gen.drop C)
  else []
termination_by gen.length
decreasing_by
  simp only [List.length_drop]
  omega

/-- Coordinator state of the main loop. `outstanding` is a ghost counter of
dispatched-but-uncompleted chunks; the code keeps **no** such counter, which
is exactly what claim C3 is about. -/
structure PoolState where
  gen : List ℕ
  busy : List Bool
  outstanding : ℕ
  isDone : Bool
deriving DecidableEq, Repr

/-- `workers.find(w => !w.isBusy)`: index of the first idle worker. -/
def firstIdle (busy : List Bool) : Option ℕ := busy.findIdx? (fun b => !b)

/-- One `assignWork()` call: no idle worker → return false (state unchanged);
generator has fewer than `C` sets left → return true (loop exit; the partial
chunk is dropped); otherwise dispatch a `C`-sized chunk to the first idle
worker and mark it busy. -/
def assignWork (C : ℕ) (s : PoolState) : PoolState :=
  match firstIdle s.busy with
  | none => s
  | some i =>
      if s.gen.length < C then { s with isDone := true }
      else { s with gen := s.gen.drop C, busy := s.busy.set i true,
                    outstanding := s.outstanding + 1 }

/-- Delivery of a worker's completion message: the worker becomes idle and its
chunk is no longer outstanding. A message can only come from a busy worker. -/
def completeMsg (i : ℕ) (s : PoolState) : PoolState :=
  if s.busy.getD i false then
    { s with busy := s.busy.set i false, outstanding := s.outstanding - 1 }
  else s

/-- Events interleaved by the runtime: a main-loop `assignWork` iteration, or
the asynchronous arrival of a completion message from worker `i`. -/
inductive PoolEv where
  | assign : PoolEv
  | complete : ℕ → PoolEv

/-- One scheduler step: the main loop stops calling `assignWork` once
`isDone` is set. -/
def poolStep (C : ℕ) (s : PoolState) : PoolEv → PoolState
  | PoolEv.assign => if s.isDone then s else assignWork C s
  | PoolEv.complete i => completeMsg i s

/-- Run the coordinator over a sequence of events. -/
def poolRun (C : ℕ) (s : PoolState) (evs : List PoolEv) : PoolState :=
  evs.foldl (poolStep C) s

/-! ## Partial result file naming (`ResultWriter.openNewFile`) -/

/-- The path (within `CONFIG.resultsDir`) opened for file index `n`:
`results_<n>.csv`. The writer state carries no worker identity. -/
def openNewFilePath (fileIndex : ℕ) : String :=
  "results_" ++ toString fileIndex ++ ".csv"

/-- The sequence of paths a given worker's writer opens for its first `k`
files. Every worker runs an identical `ResultWriter` whose `fileIndex` starts
at 0 and is pre-incremented, so the sequence does not depend on `workerId`. -/
def workerFilePaths (workerId k : ℕ) : List String :=
  (List.range k).map (fun j => openNewFilePath (j + 1))

/-! ## Dispatcher counters (C9) -/

/-- A worker completion message as destructured by the dispatcher:
`{processed, relevant}`, each possibly absent (`undefined`). -/
structure DoneMsg where
  processed : Option ℚ
  relevant : Option ℚ
deriving DecidableEq, Repr

/-- The message the worker actually posts:
`{type: 'done', processed: paramsChunk.length}` — no `relevant` field. -/
def workerDoneMsg (chunkLen : ℕ) : DoneMsg := ⟨some (chunkLen : ℚ), none⟩

/-- `total += delta` where `delta` may be `undefined`: adding `undefined`
to a number yields NaN. -/
def jnAddDelta (total : JN) (delta : Option ℚ) : JN :=
  jnAdd total (match delta with | some q => JN.fin q | none => JN.nan)

/-- The dispatcher's counter update on one completion message:
`(totalProcessed, totalRelevant) += (msg.processed, msg.relevant)`. -/
def applyDone (counters : JN × JN) (msg : DoneMsg) : JN × JN :=
  (jnAddDelta counters.1 msg.processed, jnAddDelta counters.2 msg.relevant)

/-! ## Degrees → cardinal sector mapping (`gradosACardinal`) -/

/-- The digit characters of the input, in order
(`.replace(/[^0-9]/g, '')`). -/
def digitsOf (s : String) : List Char := s.data.filter Char.isDigit

/-- The numeric value of a digit string. -/
def natOfDigits (cs : List Char) : ℕ :=
  cs.foldl (fun n c => 10 * n + (c.toNat - 48)) 0

/-- The double-overflow cutoff 2¹⁰²⁴ − 2⁹⁷⁰: under round-to-nearest (ties to
even), a nonnegative real value below this bound rounds to a finite double
(at most `Number.MAX_VALUE` = 2¹⁰²⁴ − 2⁹⁷¹) and a value at or above it rounds
to Infinity. -/
def jsOverflowBound : ℚ := 2 ^ 1024 - 2 ^ 970

/-- `parseInt` on the stripped digit characters: NaN on an empty string,
Infinity when the mathematical value reaches the double-overflow cutoff, the
value itself otherwise. The finite/Infinity split is exact. For finite
results above 2⁵³ the true double is a rounding of the exact integer kept
here; that can change *which* sector such an input lands in but never whether
one is found, and no claim below decides the sector for those inputs. -/
def parseIntDigits (cs : List Char) : JN :=
  if cs = [] then JN.nan
  else if jsOverflowBound ≤ (natOfDigits cs : ℚ) then JN.inf
  else JN.fin (natOfDigits cs)

/-- `parseInt(stripped) || 0`: the falsy parse results NaN and 0 become 0
(`0 || 0` is 0, so sending both to 0 is exact); Infinity is truthy and
passes through. -/
def numericValueOf (s : String) : JN :=
  match parseIntDigits (digitsOf s) with
  | JN.nan => JN.fin 0
  | v => v

/-- JS `% 360`: NaN or an infinite dividend gives NaN; for a finite dividend
the remainder carries the dividend's sign — every dividend reaching this
model is nonnegative (it comes from a digit string), where the truncated and
floored remainders coincide. -/
def jnMod360 : JN → JN
  | JN.nan => JN.nan
  | JN.inf => JN.nan
  | JN.ninf => JN.nan
  | JN.fin q => JN.fin (q - 360 * (⌊q / 360⌋ : ℚ))

/-- `((numericValue % 360) + 360) % 360` in JS-number arithmetic: an Infinity
input turns into NaN at the first `%` and NaN then propagates. -/
def normalizedOf (s : String) : JN :=
  jnMod360 (jnAdd (jnMod360 (numericValueOf s)) (JN.fin 360))

/-- One sector boundary entry `{max, dir}`. -/
structure Sector where
  max : ℚ
  dir : Dir
deriving DecidableEq, Repr

/-- The sector table with boundaries at 22.5°, 67.5°, …, 337.5°, wrapping to N. -/
def sectors : List Sector :=
  [⟨22.5, Dir.N⟩, ⟨67.5, Dir.NE⟩, ⟨112.5, Dir.E⟩, ⟨157.5, Dir.SE⟩,
   ⟨202.5, Dir.S⟩, ⟨247.5, Dir.SW⟩, ⟨292.5, Dir.W⟩, ⟨337.5, Dir.NW⟩,
   ⟨360, Dir.N⟩]

/-- JS `<=` against a plain number: false whenever the left side is NaN. -/
def jnLeQ : JN → ℚ → Bool
  | JN.nan, _ => false
  | JN.inf, _ => false
  | JN.ninf, _ => true
  | JN.fin a, m => decide (a ≤ m)

/-- `gradosACardinal`: strip non-digits, default to 0, normalize, and return
the direction of the first sector whose `max` bound is not exceeded. When no
comparison holds — as for a NaN normalized value — `sectors.find(...)` is
`undefined` in JS and `.dir` throws a TypeError; that failure is modelled by
`none`. -/
def gradosACardinal (grados : String) : Option Dir :=
  (sectors.find? (fun sec => jnLeQ (normalizedOf grados) sec.max)).map Sector.dir

/-! ## Concrete instances used by the claim evaluations -/

/-- A model satisfying every wind-path guard the spec mentions: nonzero wind
coefficients for all directions, nonzero wind factor, zero lags. -/
def windBugModel : RiverModel :=
  ⟨1, 1, 1, 0, 0, 0, 0, fun _ => 1 / 100, 1, 0⟩

/-- One valid wind sample (direction E, finite nonzero speed 5) and one valid
target point 1 second later. -/
def windBugData : EvalData :=
  ⟨[], [], [], [⟨0, 5, 5, Dir.E⟩], [⟨1000, 2⟩]⟩

/-- The claim C5 configuration: weights {palmas: 1, itu: 0, ba: 0}, all lags 0,
windFactor 0, offset 0. -/
def identityModel : RiverModel :=
  ⟨1, 0, 0, 0, 0, 0, 0, fun _ => 0, 0, 0⟩

/-- A single-point palmas series whose value at the target timestamp equals
the observed value (the claim C5 scenario). -/
def identityData : EvalData :=
  ⟨[⟨0, 3⟩], [], [], [], [⟨0, 3⟩]⟩

/-! ## Helper lemmas (shared) -/

/-- Rounding 0 to four decimals gives 0. -/
theorem round4_zero : round4 0 = 0 := by
  simp [round4]

/-- Rounding 1 to four decimals gives 1. -/
theorem round4_one : round4 1 = 1 := by
  rw [round4, one_mul]
  rw [show ((10 : ℚ) ^ 4) = ((10 ^ 4 : ℕ) : ℚ) by norm_num]
  rw [round_natCast]
  norm_num

/-- The rounded square root of 0 is 0. -/
theorem round4Sqrt_zero : round4Sqrt 0 = 0 := by
  norm_num [round4Sqrt]

/-- When predictions are the observations themselves, every error is exactly 0. -/
theorem errors_of_identical (obs : List ℚ) :
    (obs.zip (obs.map JVal.num)).map (fun p => jnOfSub p.1 p.2)
      = List.replicate obs.length (JN.fin 0) := by
  induction obs with
  | nil => rfl
  | cons a t ih =>
      simp only [List.map_cons, List.zip_cons_cons, List.length_cons, List.replicate_succ]
      refine congrArg₂ List.cons ?_ ih
      simp [jnOfSub]

/-- The sum of squared errors over all-zero errors is exactly 0. -/
theorem sseOf_replicate_zero (n : ℕ) :
    sseOf (List.replicate n (JN.fin 0)) = JN.fin 0 := by
  induction n with
  | zero => rfl
  | succ k ih =>
      unfold sseOf at ih ⊢
      rw [List.replicate_succ, List.foldl_cons]
      have h0 : jnAdd (JN.fin 0) (jnMul (JN.fin 0) (JN.fin 0)) = JN.fin 0 := by
        norm_num [jnAdd, jnMul]
      rw [h0]
      exact ih

/-- Away from an exact hit, the reduce's distance is the finite absolute difference. -/
theorem jsDiff_ne_top (t q : ℚ) (h : t ≠ q) :
    jsDiff t q = ((|t - q| : ℚ) : WithTop ℚ) := by
  unfold jsDiff
  rw [if_neg]
  rw [abs_eq_zero, sub_eq_zero]
  exact h

/-- If no remaining element strictly beats the accumulator's distance, the
reduce keeps the accumulator (ties keep the earlier candidate). -/
theorem foldl_keep (q : ℚ) (l : List TimePoint) (acc : Option TimePoint)
    (h : ∀ p ∈ l, ¬ jsDiff p.x q < jsAccDiff q acc) :
    l.foldl (jsCloser q) acc = acc := by
  induction l generalizing acc with
  | nil => rfl
  | cons a t ih =>
      rw [List.foldl_cons]
      have hstep : jsCloser q acc a = acc := by
        unfold jsCloser
        rw [if_neg (h a (by simp))]
      rw [hstep]
      exact ih acc (fun p hp => h p (by simp [hp]))

/-- Over a run of strictly improving distances, the reduce ends on the last
element of the run. -/
theorem foldl_desc (q : ℚ) :
    ∀ (l : List TimePoint) (hne : l ≠ []) (acc : Option TimePoint),
      List.Chain' (fun u v : TimePoint => jsDiff v.x q < jsDiff u.x q) l →
      jsDiff (l.head hne).x q < jsAccDiff q acc →
      l.foldl (jsCloser q) acc = some (l.getLast hne) := by
  intro l
  induction l with
  | nil => intro hne; exact absurd rfl hne
  | cons a t ih =>
      intro _ acc hchain hlt
      rw [List.foldl_cons]
      have hstep : jsCloser q acc a = some a := by
        unfold jsCloser
        rw [if_pos (by simpa using hlt)]
      rw [hstep]
      cases t with
      | nil => rfl
      | cons b t' =>
          have hchain' := (List.chain'_cons.mp hchain)
          have hres := ih (List.cons_ne_nil b t') (some a) hchain'.2
            (by simpa [jsAccDiff] using hchain'.1)
          rw [hres]
          rw [List.getLast_cons (List.cons_ne_nil b t')]

/-- Strictly increasing times all below the query give strictly improving
distances along the list. -/
theorem chain_diff_desc (q : ℚ) (l : List TimePoint)
    (hs : List.Chain' (fun u v : TimePoint => u.x < v.x) l)
    (hb : ∀ p ∈ l, p.x < q) :
    List.Chain' (fun u v : TimePoint => jsDiff v.x q < jsDiff u.x q) l := by
  induction l with
  | nil => exact List.chain'_nil
  | cons a t ih =>
      cases t with
      | nil => simp
      | cons b t' =>
          rw [List.chain'_cons] at hs ⊢
          have hbq : b.x < q := hb b (by simp)
          have haq : a.x < q := hb a (by simp)
          refine ⟨?_, ih hs.2 (fun p hp => hb p (by simp [hp]))⟩
          rw [jsDiff_ne_top _ _ (ne_of_lt hbq), jsDiff_ne_top _ _ (ne_of_lt haq)]
          rw [WithTop.coe_lt_coe]
          rw [abs_of_neg (by linarith), abs_of_neg (by linarith)]
          have := hs.1
          linarith

/-- The sector scan succeeds for every finite normalized value at most 360. -/
theorem sectors_total (r : ℚ) (hr : r ≤ 360) :
    ((sectors.find? (fun sec => jnLeQ (JN.fin r) sec.max)).map Sector.dir).isSome
      = true := by
  by_cases h1 : r ≤ 22.5
  · simp [sectors, List.find?, jnLeQ, h1]
  by_cases h2 : r ≤ 67.5
  · simp [sectors, List.find?, jnLeQ, h1, h2]
  by_cases h3 : r ≤ 112.5
  · simp [sectors, List.find?, jnLeQ, h1, h2, h3]
  by_cases h4 : r ≤ 157.5
  · simp [sectors, List.find?, jnLeQ, h1, h2, h3, h4]
  by_cases h5 : r ≤ 202.5
  · simp [sectors, List.find?, jnLeQ, h1, h2, h3, h4, h5]
  by_cases h6 : r ≤ 247.5
  · simp [sectors, List.find?, jnLeQ, h1, h2, h3, h4, h5, h6]
  by_cases h7 : r ≤ 292.5
  · simp [sectors, List.find?, jnLeQ, h1, h2, h3, h4, h5, h6, h7]
  by_cases h8 : r ≤ 337.5
  · simp [sectors, List.find?, jnLeQ, h1, h2, h3, h4, h5, h6, h7, h8]
  · simp [sectors, List.find?, jnLeQ, h1, h2, h3, h4, h5, h6, h7, h8, hr]

/-- The `((x % 360) + 360) % 360` pipeline on a nonnegative finite value lands
exactly on the canonical representative in [0, 360). -/
theorem mod360_pipeline (q : ℚ) (hq : 0 ≤ q) :
    ∃ r : ℚ, jnMod360 (jnAdd (jnMod360 (JN.fin q)) (JN.fin 360)) = JN.fin r
      ∧ 0 ≤ r ∧ r < 360 := by
  have hq360 : 360 * (q / 360) = q := by ring
  have h1 : ((⌊q / 360⌋ : ℤ) : ℚ) ≤ q / 360 := Int.floor_le _
  have h2 : q / 360 < ((⌊q / 360⌋ : ℤ) : ℚ) + 1 := Int.lt_floor_add_one _
  have hr0_nonneg : 0 ≤ q - 360 * ((⌊q / 360⌋ : ℤ) : ℚ) := by linarith
  have hr0_lt : q - 360 * ((⌊q / 360⌋ : ℤ) : ℚ) < 360 := by linarith
  refine ⟨q - 360 * ((⌊q / 360⌋ : ℤ) : ℚ), ?_, hr0_nonneg, hr0_lt⟩
  have hfloor0 : ⌊(q - 360 * ((⌊q / 360⌋ : ℤ) : ℚ)) / 360⌋ = 0 := by
    rw [Int.floor_eq_zero_iff, Set.mem_Ico]
    constructor
    · exact div_nonneg hr0_nonneg (by norm_num)
    · rw [div_lt_one (by norm_num)]
      exact hr0_lt
  have hfloor1 : ⌊(q - 360 * ((⌊q / 360⌋ : ℤ) : ℚ) + 360) / 360⌋ = 1 := by
    have hsplit : (q - 360 * ((⌊q / 360⌋ : ℤ) : ℚ) + 360) / 360
        = (q - 360 * ((⌊q / 360⌋ : ℤ) : ℚ)) / 360 + 1 := by ring
    rw [hsplit, Int.floor_add_one, hfloor0]
    norm_num
  simp only [jnMod360, jnAdd, hfloor1]
  congr 1
  push_cast
  ring

/-- Overflowing digits make the normalized value NaN and the sector scan
fail (`sectors.find(...)` is `undefined` and `.dir` throws). -/
theorem gradosACardinal_overflow (s : String) (hne : digitsOf s ≠ [])
    (hbig : jsOverflowBound ≤ (natOfDigits (digitsOf s) : ℚ)) :
    gradosACardinal s = none := by
  have hparse : parseIntDigits (digitsOf s) = JN.inf := by
    unfold parseIntDigits
    rw [if_neg hne, if_pos hbig]
  have hnum : numericValueOf s = JN.inf := by
    unfold numericValueOf
    rw [hparse]
  have hnorm : normalizedOf s = JN.nan := by
    unfold normalizedOf
    rw [hnum]
    rfl
  unfold gradosACardinal
  rw [hnorm]
  simp [sectors, List.find?, jnLeQ]

/-- Folding the digit step over zero characters multiplies the accumulator by
the matching power of ten. -/
theorem natOfDigits_zeros (n : ℕ) : ∀ acc : ℕ,
    (List.replicate n '0').foldl (fun m c => 10 * m + (c.toNat - 48)) acc
      = acc * 10 ^ n := by
  induction n with
  | zero =>
      intro acc
      simp
  | succ k ih =>
      intro acc
      rw [List.replicate_succ, List.foldl_cons]
      have h0 : 10 * acc + ('0'.toNat - 48) = 10 * acc := rfl
      rw [h0, ih (10 * acc)]
      ring

/-- The digit string `'1'` followed by `n` zeros evaluates to 10^n. -/
theorem natOfDigits_one_zeros (n : ℕ) :
    natOfDigits ('1' :: List.replicate n '0') = 10 ^ n := by
  unfold natOfDigits
  rw [List.foldl_cons]
  have h1 : 10 * 0 + ('1'.toNat - 48) = 1 := rfl
  rw [h1, natOfDigits_zeros n 1, one_mul]

/-- Stripping leaves an all-digit character list unchanged. -/
theorem digitsOf_mk_digits (cs : List Char) (h : ∀ c ∈ cs, c.isDigit = true) :
    digitsOf (String.mk cs) = cs := by
  unfold digitsOf
  show cs.filter Char.isDigit = cs
  exact List.filter_eq_self.mpr h

/-! ## Claim theorems -/

/-- C1: the claim says the wind term degrades to the *number* 0 and the total
prediction is always a finite number. In the code, `findClosestValue` returns
the closest point's `y` (a number), `calculateWindComponent` then reads
`.direction` off that number (`undefined`), returns the default *object*, and
`predict`'s `+` turns the whole sum into a non-numeric string — even on a
model and wind series satisfying every guard the spec lists. -/
theorem c1_wind_object_breaks_predict :
    calculateWindComponent windBugModel ⟨1000, 2⟩ windBugData.vientos = JVal.windDefault
    ∧ predict windBugModel ⟨1000, 2⟩ windBugData = JVal.str := by
  have hfc : findClosestValue [⟨(0 : ℚ), 5⟩] 1000 = 5 := by
    have hd : jsDiff (0 : ℚ) 1000 < jsAccDiff 1000 none := by
      rw [jsDiff_ne_top 0 1000 (by norm_num)]
      exact WithTop.coe_lt_top _
    simp [findClosestValue, jsCloser, hd]
  have hwind : calculateWindComponent windBugModel ⟨1000, 2⟩ windBugData.vientos
      = JVal.windDefault := by
    unfold calculateWindComponent
    norm_num [windBugModel, windBugData, WindPoint.toTimePoint, hfc, jsTruthy, jvDirection]
  refine ⟨hwind, ?_⟩
  unfold predict
  rw [hwind]
  norm_num [windBugModel, windBugData, calculateComponent, findClosestValue, jsAdd]

/-- C2: the claim says the final partial chunk is still dispatched and the sum
of processed deltas equals M. In `assignWork`, `done` mid-pull returns
immediately and the partially built chunk is discarded: with M = 3 and C = 2
only the first chunk `[0, 1]` is dispatched and the deltas sum to 2, not 3. -/
theorem c2_final_chunk_dropped :
    dispatchAll 2 [0, 1, 2] = [[0, 1]]
    ∧ ((dispatchAll 2 [0, 1, 2]).map List.length).sum ≠ ([0, 1, 2] : List ℕ).length := by
  constructor
  · simp [dispatchAll]
  · simp [dispatchAll]

/-- C3: the claim says completion is never declared while a chunk is
outstanding. With 2 workers, chunk size 2 and a generator of exactly 2
parameter sets, the first `assignWork` dispatches to worker 0 and the second
returns done (worker 1 is idle, generator drained) while worker 0's chunk is
still in flight: the loop exits with `outstanding = 1`. -/
theorem c3_completion_with_outstanding_chunk :
    (poolRun 2 ⟨[10, 20], [false, false], 0, false⟩
        [PoolEv.assign, PoolEv.assign]).isDone = true
    ∧ (poolRun 2 ⟨[10, 20], [false, false], 0, false⟩
        [PoolEv.assign, PoolEv.assign]).outstanding = 1 := by
  constructor <;> rfl

/-- C4: the claim says different workers' partial-file sequences are disjoint.
`ResultWriter` carries no worker identity: the path sequence is the same
function of the per-writer file index for every worker, so both workers 0 and
1 open `results_1.csv` as their first file. -/
theorem c4_worker_file_paths_collide :
    (∀ w1 w2 k, workerFilePaths w1 k = workerFilePaths w2 k)
    ∧ "results_1.csv" ∈ workerFilePaths 0 1
    ∧ "results_1.csv" ∈ workerFilePaths 1 1 := by
  refine ⟨fun w1 w2 k => rfl, ?_, ?_⟩ <;> decide

/-- C5: the claim's identity configuration should reproduce the observation
(RMSE 0). In the code the exact-timestamp palmas sample is *rejected* (a zero
time difference becomes Infinity via `|| Infinity`), the wind term is the
default object, the prediction is a non-numeric string, and the evaluation
yields RMSE = NaN (and R² = 0 from the single-point SST guard). -/
theorem c5_identity_config_not_recovered :
    findClosestValue [⟨(0 : ℚ), 3⟩] 0 = 0
    ∧ predict identityModel ⟨0, 3⟩ identityData = JVal.str
    ∧ evaluate identityModel identityData = ⟨JN.fin 0, JN.nan⟩ := by
  have hfc0 : findClosestValue [⟨(0 : ℚ), 3⟩] 0 = 0 := by
    norm_num [findClosestValue, jsCloser, jsDiff, jsAccDiff]
  have hpred : predict identityModel ⟨0, 3⟩ identityData = JVal.str := by
    unfold predict calculateWindComponent
    norm_num [identityModel, identityData, calculateComponent, hfc0, jsTruthy,
      jsAdd, findClosestValue]
  refine ⟨hfc0, hpred, ?_⟩
  have hpred' : predict identityModel ⟨0, 3⟩
      ⟨[⟨0, 3⟩], [], [], [], [⟨0, 3⟩]⟩ = JVal.str := hpred
  unfold evaluate
  norm_num [identityData]
  rw [hpred']
  norm_num [jnOfSub, calculateMetrics, ssTotalOf, meanOf, sseOf, jnAdd, jnMul,
    jnDivQ, jnSqrtRound4, jnRound4, round4_zero]

/-- C9: the claim says both counters are monotonically increasing. The
worker's done message carries no `relevant` field; the dispatcher adds the
resulting `undefined`, so `totalRelevant` becomes NaN after the very first
completion and NaN is not ≥ its previous value 0 (while `processed` does
accumulate correctly). -/
theorem c9_relevant_counter_nan :
    (applyDone (JN.fin 0, JN.fin 0) (workerDoneMsg 250)).2 = JN.nan
    ∧ jnGe (applyDone (JN.fin 0, JN.fin 0) (workerDoneMsg 250)).2 (JN.fin 0) = false
    ∧ (applyDone (JN.fin 0, JN.fin 0) (workerDoneMsg 250)).1 = JN.fin 250 := by
  refine ⟨rfl, rfl, ?_⟩
  norm_num [applyDone, jnAddDelta, workerDoneMsg, jnAdd]

/-- C10 counterexample: the input `'1'` followed by 309 zeros strips to the
310-digit value 10³⁰⁹, which `parseInt` rounds to Infinity; the normalization
`((Infinity % 360) + 360) % 360` is NaN, no sector comparison holds, and
`sectors.find(...)` is `undefined`, so `.dir` throws — the mapping fails
(modelled `none`) instead of returning one of the eight directions. -/
theorem c10_cardinal_total_cex :
    gradosACardinal (String.mk ('1' :: List.replicate 309 '0')) = none := by
  have hd : digitsOf (String.mk ('1' :: List.replicate 309 '0'))
      = '1' :: List.replicate 309 '0' := by
    apply digitsOf_mk_digits
    intro c hc
    rcases List.mem_cons.mp hc with h | h
    · rw [h]
      rfl
    · rw [List.eq_of_mem_replicate h]
      rfl
  apply gradosACardinal_overflow
  · rw [hd]
    exact List.cons_ne_nil _ _
  · rw [hd, natOfDigits_one_zeros]
    norm_num [jsOverflowBound]

/-- C10 (amended): `gradosACardinal` strips non-numeric characters, treats a
digit-free input as 0° mapped to N, and whenever the stripped digit value
parses to a finite JS number (below the double-overflow cutoff) the
normalized value falls inside some sector and one of the eight directions is
returned; but when the digit value reaches the cutoff, `parseInt` gives
Infinity, the normalized value is NaN, and the sector lookup fails (`.dir`
throws), so the mapping is total only on finitely-parsing inputs. -/
theorem c10_cardinal_finite_total : ∀ s : String,
    ((natOfDigits (digitsOf s) : ℚ) < jsOverflowBound →
        ∃ d : Dir, gradosACardinal s = some d)
    ∧ ((∀ c ∈ s.data, ¬ (c.isDigit = true)) → gradosACardinal s = some Dir.N)
    ∧ ((digitsOf s ≠ [] ∧ jsOverflowBound ≤ (natOfDigits (digitsOf s) : ℚ)) →
        gradosACardinal s = none) := by
  intro s
  refine ⟨?_, ?_, fun h => gradosACardinal_overflow s h.1 h.2⟩
  · intro hlt
    unfold gradosACardinal
    by_cases hd : digitsOf s = []
    · have hnum : numericValueOf s = JN.fin 0 := by
        unfold numericValueOf parseIntDigits
        rw [if_pos hd]
      obtain ⟨r, hr_eq, hr0, hrlt⟩ := mod360_pipeline 0 le_rfl
      have hnorm : normalizedOf s = JN.fin r := by
        unfold normalizedOf
        rw [hnum]
        exact hr_eq
      rw [hnorm]
      exact Option.isSome_iff_exists.mp (sectors_total r hrlt.le)
    · have hnum : numericValueOf s = JN.fin ((natOfDigits (digitsOf s) : ℚ)) := by
        unfold numericValueOf parseIntDigits
        rw [if_neg hd, if_neg (not_le.mpr hlt)]
      obtain ⟨r, hr_eq, hr0, hrlt⟩ :=
        mod360_pipeline ((natOfDigits (digitsOf s) : ℚ)) (by positivity)
      have hnorm : normalizedOf s = JN.fin r := by
        unfold normalizedOf
        rw [hnum]
        exact hr_eq
      rw [hnorm]
      exact Option.isSome_iff_exists.mp (sectors_total r hrlt.le)
  · intro h
    have hd : digitsOf s = [] := by
      apply List.filter_eq_nil_iff.mpr
      intro c hc
      exact h c hc
    have hnum : numericValueOf s = JN.fin 0 := by
      unfold numericValueOf parseIntDigits
      rw [if_pos hd]
    have hnorm : normalizedOf s = JN.fin 0 := by
      unfold normalizedOf
      rw [hnum]
      norm_num [jnMod360, jnAdd]
    unfold gradosACardinal
    rw [hnorm]
    norm_num [sectors, List.find?, jnLeQ]

/-- Witness for C10 (amended): `"45x"` strips to the finitely-parsing value 45
and maps to some direction; the digit-free `"NNE"` maps to N. -/
theorem c10_cardinal_finite_total_witness :
    (∃ d : Dir, gradosACardinal "45x" = some d)
    ∧ gradosACardinal "NNE" = some Dir.N := by
  constructor
  · apply (c10_cardinal_finite_total "45x").1
    have hd : digitsOf "45x" = ['4', '5'] := by decide
    have hn : natOfDigits ['4', '5'] = 45 := by decide
    rw [hd, hn]
    norm_num [jsOverflowBound]
  · exact (c10_cardinal_finite_total "NNE").2.1 (by decide)

/-- C6: the metrics evaluator returns RMSE = 0 and R² = 1 on identical
prediction/observation sequences with SST > 1e-10, and returns R² = 0 whenever
SST ≤ 1e-10, regardless of the predictions, never dividing by the near-zero
SST. -/
theorem c6_metrics :
    (∀ observations : List ℚ, 1e-10 < ssTotalOf observations →
        evaluateMetrics (observations.map JVal.num) observations
          = ⟨JN.fin 1, JN.fin 0⟩)
    ∧ (∀ (predictions : List JVal) (observations : List ℚ),
        predictions.length = observations.length →
        ssTotalOf observations ≤ 1e-10 →
        (evaluateMetrics predictions observations).r2 = JN.fin 0) := by
  constructor
  · intro obs h
    have hne : ¬ obs.length = 0 := by
      intro h0
      rw [List.length_eq_zero] at h0
      subst h0
      norm_num [ssTotalOf] at h
    have hnq : (obs.length : ℚ) ≠ 0 := Nat.cast_ne_zero.mpr hne
    have hsst0 : ¬ ssTotalOf obs = 0 := by
      intro h0
      rw [h0] at h
      norm_num at h
    unfold evaluateMetrics calculateMetrics
    rw [if_neg hne]
    rw [errors_of_identical obs, sseOf_replicate_zero]
    rw [if_neg (not_le.mpr h)]
    rw [show jnDivQ (JN.fin 0) (ssTotalOf obs) = JN.fin 0 by
      simp [jnDivQ, hsst0]]
    rw [show jnDivQ (JN.fin 0) ((obs.length : ℕ) : ℚ) = JN.fin 0 by
      simp [jnDivQ, hnq]]
    simp [jnSub, jnRound4, jnSqrtRound4, round4_one, round4Sqrt_zero]
  · intro preds obs hlen hsst
    unfold evaluateMetrics calculateMetrics
    by_cases h0 : obs.length = 0
    · rw [if_pos h0]
    · rw [if_neg h0, if_pos hsst]
      simp [jnRound4, round4_zero]

/-- Witness for C6: identical sequences `[0, 1]` (SST = 1/2 > 1e-10) give
RMSE = 0 and R² = 1; near-constant observations `[5, 5]` (SST = 0) give
R² = 0 even under arbitrary (even non-numeric) predictions. -/
theorem c6_metrics_witness :
    evaluateMetrics ([(0 : ℚ), 1].map JVal.num) [(0 : ℚ), 1] = ⟨JN.fin 1, JN.fin 0⟩
    ∧ (evaluateMetrics [JVal.num 7, JVal.str] [(5 : ℚ), 5]).r2 = JN.fin 0 := by
  constructor
  · exact c6_metrics.1 [0, 1] (by norm_num [ssTotalOf, meanOf])
  · exact c6_metrics.2 [JVal.num 7, JVal.str] [5, 5] (by norm_num)
      (by norm_num [ssTotalOf, meanOf])

/-- C7: every row emitted by the Result Sink has exactly 30 cells, equal to the
full column list with the claim's column-specific defaults substituted for
absent fields; every row emitted by the Result Merger has exactly 30 cells,
absent or blank positions get the positional default, and the positional
defaults agree, column by column, with the claim's column-specific defaults. -/
theorem c7_row_normalization :
    ∀ (result : String → Option JN) (parts : List String) (i : ℕ),
      (writerRow result).length = 30
      ∧ writerRow result = csvColumns.map (fun c => (result c).getD (defaultForCol c))
      ∧ (normalizeLine parts).length = 30
      ∧ (i < 30 → ¬(i < parts.length ∧ (parts.getD i "").trim ≠ "") →
          (normalizeLine parts)[i]? = some (mergeDefault i))
      ∧ (List.range 30).map mergeDefault = csvColumns.map strDefaultForCol := by
  intro result parts i
  refine ⟨rfl, rfl, by simp [normalizeLine], ?_, by decide⟩
  intro hi habs
  unfold normalizeLine
  rw [List.getElem?_map, List.getElem?_range hi]
  simp only [Option.map_some']
  rw [if_neg habs]

/-- Witness for C7 at an empty record and an empty line: the first writer cell
falls back to 0 and the first merger cell to `"0"`. -/
theorem c7_row_normalization_witness :
    (normalizeLine ([] : List String))[0]? = some "0" := by
  have h := (c7_row_normalization (fun _ => none) [] 0).2.2.2.1 (by norm_num) (by simp)
  simpa [mergeDefault] using h

/-- C8: for a series with strictly increasing times, a lookup at a query time
strictly between two consecutive sample times returns the value of whichever
neighbour has the smaller absolute time difference, and an exact tie resolves
to the earlier-scanned (earlier-time) candidate. -/
theorem c8_nearest_between (pre post : List TimePoint) (a b : TimePoint) (q : ℚ)
    (hsort : List.Chain' (fun u v : TimePoint => u.x < v.x) (pre ++ a :: b :: post))
    (h1 : a.x < q) (h2 : q < b.x) :
    findClosestValue (pre ++ a :: b :: post) q =
      if |a.x - q| ≤ |b.x - q| then a.y else b.y := by
  haveI : IsTrans TimePoint (fun u v : TimePoint => u.x < v.x) :=
    ⟨fun _ _ _ h h' => lt_trans h h'⟩
  have hpw : List.Pairwise (fun u v : TimePoint => u.x < v.x) (pre ++ a :: b :: post) :=
    List.chain'_iff_pairwise.mp hsort
  rw [List.pairwise_append] at hpw
  obtain ⟨hpre, hrest, hcross⟩ := hpw
  have hrest1 := List.pairwise_cons.mp hrest
  have hrest2 := List.pairwise_cons.mp hrest1.2
  have hbpost : ∀ p ∈ post, b.x < p.x := hrest2.1
  -- every element of pre ++ [a] sits strictly before the query
  have hpre_lt_q : ∀ p ∈ pre ++ [a], p.x < q := by
    intro p hp
    rcases List.mem_append.mp hp with hp | hp
    · exact lt_trans (hcross p hp a (by simp)) h1
    · rw [List.mem_singleton.mp hp]
      exact h1
  have hchain_pa : List.Chain' (fun u v : TimePoint => u.x < v.x) (pre ++ [a]) := by
    have hpw2 : List.Pairwise (fun u v : TimePoint => u.x < v.x) (pre ++ [a]) := by
      rw [List.pairwise_append]
      refine ⟨hpre, List.pairwise_singleton _ _, ?_⟩
      intro s hs u hu
      rw [List.mem_singleton.mp hu]
      exact hcross s hs a (by simp)
    exact hpw2.chain'
  have hne : pre ++ [a] ≠ [] := by simp
  have hhead : jsDiff ((pre ++ [a]).head hne).x q < jsAccDiff q none := by
    have hx : ((pre ++ [a]).head hne).x < q := hpre_lt_q _ (List.head_mem hne)
    rw [jsDiff_ne_top _ _ (ne_of_lt hx)]
    exact WithTop.coe_lt_top _
  have hA : (pre ++ [a]).foldl (jsCloser q) none = some a := by
    rw [foldl_desc q (pre ++ [a]) hne none
      (chain_diff_desc q (pre ++ [a]) hchain_pa hpre_lt_q) hhead]
    have hlast : (pre ++ [a]).getLast hne = a := by
      rw [List.getLast_append' pre [a] (List.cons_ne_nil a [])]
      rfl
    rw [hlast]
  have hda : jsDiff a.x q = ((|a.x - q| : ℚ) : WithTop ℚ) := jsDiff_ne_top _ _ (ne_of_lt h1)
  have hdb : jsDiff b.x q = ((|b.x - q| : ℚ) : WithTop ℚ) := jsDiff_ne_top _ _ (ne_of_gt h2)
  have habs_a : |a.x - q| = q - a.x := by
    rw [abs_of_neg (by linarith)]
    ring
  have habs_b : |b.x - q| = b.x - q := abs_of_pos (by linarith)
  unfold findClosestValue
  rw [show pre ++ a :: b :: post = (pre ++ [a]) ++ b :: post by simp]
  rw [List.foldl_append, hA, List.foldl_cons]
  by_cases hc : |a.x - q| ≤ |b.x - q|
  · have hc' := hc
    rw [habs_a, habs_b] at hc'
    have hstep : jsCloser q (some a) b = some a := by
      unfold jsCloser
      rw [if_neg]
      show ¬ jsDiff b.x q < jsDiff a.x q
      rw [hda, hdb, WithTop.coe_lt_coe]
      exact not_lt.mpr hc
    rw [hstep]
    rw [foldl_keep q post (some a) ?_]
    · show a.y = _
      rw [if_pos hc]
    · intro p hp
      have hbp : b.x < p.x := hbpost p hp
      have hpq : q < p.x := lt_trans h2 hbp
      show ¬ jsDiff p.x q < jsDiff a.x q
      rw [jsDiff_ne_top _ _ (ne_of_gt hpq), hda, WithTop.coe_lt_coe]
      rw [habs_a, abs_of_pos (by linarith)]
      intro hlt
      linarith
  · have hc' := not_le.mp hc
    rw [habs_a, habs_b] at hc'
    have hstep : jsCloser q (some a) b = some b := by
      unfold jsCloser
      rw [if_pos]
      show jsDiff b.x q < jsDiff a.x q
      rw [hda, hdb, WithTop.coe_lt_coe]
      exact not_le.mp hc
    rw [hstep]
    rw [foldl_keep q post (some b) ?_]
    · show b.y = _
      rw [if_neg hc]
    · intro p hp
      have hbp : b.x < p.x := hbpost p hp
      have hpq : q < p.x := lt_trans h2 hbp
      show ¬ jsDiff p.x q < jsDiff b.x q
      rw [jsDiff_ne_top _ _ (ne_of_gt hpq), hdb, WithTop.coe_lt_coe]
      rw [habs_b, abs_of_pos (by linarith)]
      intro hlt
      linarith

/-- Witness for C8: two samples at times 0 and 4, query at 1, closer to the
first sample, returns its value 10. -/
theorem c8_nearest_between_witness :
    findClosestValue [⟨0, 10⟩, ⟨4, 20⟩] 1 = 10 := by
  have h := c8_nearest_between [] [] ⟨0, 10⟩ ⟨4, 20⟩ 1
    (by simp [List.chain'_cons]) (by norm_num) (by norm_num)
  rw [if_pos (by norm_num)] at h
  simpa using h
